import Mathlib

/-!
Verification of the NLx402 Rust client (`src/rust/src/lib.rs`) against its
specification.  The client is embedded shallowly: the HTTP network is an
oracle function from requests to transport results, every operation returns
its `Except` result together with the list of network requests it issued,
and JSON documents are an inductive value type (numbers are modelled as
integers, which covers every numeric field of the wire shapes exercised
here; the unused `created_at : f64` field is modelled by the same integer
type).
-/

set_option maxHeartbeats 1000000

namespace NLx402

/-- JSON values as `serde_json::Value` models them for this client. -/
inductive Json where
  | null : Json
  | bool (b : Bool) : Json
  | num (n : Int) : Json
  | str (s : String) : Json
  | arr (elems : List Json) : Json
  | obj (fields : List (String × Json)) : Json
deriving Repr

/-- Lower-case hex digit, for JSON control-character escapes. -/
def hexDigit (n : Nat) : String :=
  String.singleton (Char.ofNat (if n < 10 then 48 + n else 87 + n))

/-- Escape of a single character inside a JSON string literal,
as `serde_json` emits it. -/
def escapeChar (c : Char) : String :=
  if c = '"' then "\\\""
  else if c = '\\' then "\\\\"
  else if c = '\n' then "\\n"
  else if c = '\r' then "\\r"
  else if c = '\t' then "\\t"
  else if c.toNat < 32 then "\\u00" ++ hexDigit (c.toNat / 16) ++ hexDigit (c.toNat % 16)
  else String.singleton c

/-- Escape every character of a string for a JSON string literal. -/
def escapeString (s : String) : String :=
  s.data.foldl (fun acc c => acc ++ escapeChar c) ""

/-- A JSON string literal with its surrounding quotes. -/
def renderString (s : String) : String :=
  "\"" ++ escapeString s ++ "\""

mutual

/-- Compact rendering of a JSON value to its wire text,
modelling `serde_json::to_string`. -/
def Json.render : Json → String
  | .null => "null"
  | .bool b => if b then "true" else "false"
  | .num n => toString n
  | .str s => renderString s
  | .arr xs => "[" ++ renderElems xs ++ "]"
  | .obj fs => "\x7b" ++ renderFields fs ++ "\x7d"

/-- Comma-separated rendering of array elements. -/
def renderElems : List Json → String
  | [] => ""
  | [x] => Json.render x
  | x :: y :: rest => Json.render x ++ "," ++ renderElems (y :: rest)

/-- Comma-separated rendering of object fields. -/
def renderFields : List (String × Json) → String
  | [] => ""
  | [(k, v)] => renderString k ++ ":" ++ Json.render v
  | (k, v) :: y :: rest => renderString k ++ ":" ++ Json.render v ++ "," ++ renderFields (y :: rest)

end

/-- The closed error taxonomy `Nlx402Error` of the client.  `http` models the
`Http(reqwest::Error)` variant with the failure cause abstracted to a string. -/
inductive Nlx402Error where
  | http (cause : String)
  | api (status : Nat) (body : Option Json)
  | missingApiKey
  | invalidResponse (msg : String)
deriving Repr

/-- HTTP request method (the client only uses GET and POST). -/
inductive Method where
  | get
  | post
deriving Repr, DecidableEq

/-- A fully built HTTP request: method, absolute URL, headers, and the
optional URL-form-encoded body (`.form(&form)` in the source). -/
structure Request where
  method : Method
  url : String
  headers : List (String × String)
  form : Option (List (String × String))
deriving Repr

/-- The raw body text of a response, classified by whether the text parses
as a generic JSON value: `serde_json::from_str::<Value>` succeeds exactly on
`.json v` bodies and fails on `.malformed raw` bodies. -/
inductive BodyText where
  | json (v : Json)
  | malformed (raw : String)
deriving Repr

/-- Outcome of the transport layer for one request: a transport-level
failure (`builder.send()` or `res.text()` erroring), or a status code with
the response body text. -/
inductive TransportResult where
  | failed (cause : String)
  | response (status : Nat) (body : BodyText)
deriving Repr

/-- Best-effort parse of a body as a generic JSON value, modelling
`serde_json::from_str::<Value>(&text).ok()`. -/
def BodyText.parseValue : BodyText → Option Json
  | .json v => some v
  | .malformed _ => none

/-- The parse-error message produced when a body text is not valid JSON
(modelling the `serde_json` error's `to_string`). -/
def parseFailureMsg (raw : String) : String :=
  "expected value: " ++ raw

/-- The response-classification step `send_json`: a transport failure maps to
`http`; a non-2xx status maps to `api` with the best-effort parsed body; a
2xx status is decoded with the expected typed shape's decoder, a decode
failure mapping to `invalidResponse` with the parse error message. -/
def send_json {α : Type} (decode : Json → Except String α) (r : TransportResult) :
    Except Nlx402Error α :=
  match r with
  | .failed cause => .error (.http cause)
  | .response status body =>
    if 200 ≤ status ∧ status < 300 then
      match body with
      | .json v =>
        match decode v with
        | .ok a => .ok a
        | .error e => .error (.invalidResponse e)
      | .malformed raw => .error (.invalidResponse (parseFailureMsg raw))
    else
      .error (.api status body.parseValue)

/-- Decode a JSON value as a Rust `String` field. -/
def decodeString : Json → Except String String
  | .str s => .ok s
  | _ => .error "invalid type: expected a string"

/-- Decode a JSON value as a Rust `bool` field. -/
def decodeBool : Json → Except String Bool
  | .bool b => .ok b
  | _ => .error "invalid type: expected a boolean"

/-- Decode a JSON value as a Rust `u32` field: an integer in `[0, 2^32)`. -/
def decodeU32 : Json → Except String Int
  | .num n =>
    if 0 ≤ n ∧ n < 4294967296 then .ok n
    else .error "invalid value: integer out of range for u32"
  | _ => .error "invalid type: expected u32"

/-- Decode a JSON value as a Rust `i64` field: an integer in `[-2^63, 2^63)`. -/
def decodeI64 : Json → Except String Int
  | .num n =>
    if -9223372036854775808 ≤ n ∧ n < 9223372036854775808 then .ok n
    else .error "invalid value: integer out of range for i64"
  | _ => .error "invalid type: expected i64"

/-- Decode a JSON value as a Rust `f64` field.  The numeric model is the
integers, so this accepts any number value. -/
def decodeF64 : Json → Except String Int
  | .num n => .ok n
  | _ => .error "invalid type: expected f64"

/-- Decode a JSON value as a Rust `Vec<String>` field. -/
def decodeStringList : Json → Except String (List String)
  | .arr xs =>
    let rec go : List Json → Except String (List String)
      | [] => .ok []
      | v :: rest =>
        match decodeString v with
        | .error e => .error e
        | .ok s =>
          match go rest with
          | .error e => .error e
          | .ok ss => .ok (s :: ss)
    go xs
  | _ => .error "invalid type: expected a sequence"

/-- The typed quote payload `QuoteResponse`.  The `u32` field `decimals` and
the `i64` field `expires_at` are carried as integers; their machine ranges
are the well-formedness predicate `QuoteResponse.Wf`. -/
structure QuoteResponse where
  amount : String
  chain : String
  decimals : Int
  expires_at : Int
  mint : String
  network : String
  nonce : String
  recipient : String
  version : String
deriving Repr

/-- A quote is well formed when its integer fields fit their Rust machine
types (`decimals : u32`, `expires_at : i64`). -/
def QuoteResponse.Wf (q : QuoteResponse) : Prop :=
  0 ≤ q.decimals ∧ q.decimals < 4294967296 ∧
  -9223372036854775808 ≤ q.expires_at ∧ q.expires_at < 9223372036854775808

/-- Serialization of a quote to its JSON document, in struct declaration
order as `serde` derives it. -/
def quoteToJson (q : QuoteResponse) : Json :=
  .obj [("amount", .str q.amount), ("chain", .str q.chain),
        ("decimals", .num q.decimals), ("expires_at", .num q.expires_at),
        ("mint", .str q.mint), ("network", .str q.network),
        ("nonce", .str q.nonce), ("recipient", .str q.recipient),
        ("version", .str q.version)]

/-- Serialization of a quote to wire text, modelling
`serde_json::to_string(quote)` (total for this struct). -/
def serializeQuote (q : QuoteResponse) : String :=
  (quoteToJson q).render

/-- Accumulator for the derived map deserializer of `QuoteResponse`: one
optional slot per struct field. -/
structure QuotePartial where
  amount : Option String := none
  chain : Option String := none
  decimals : Option Int := none
  expires_at : Option Int := none
  mint : Option String := none
  network : Option String := none
  nonce : Option String := none
  recipient : Option String := none
  version : Option String := none

/-- One pass over the JSON object's entries, as serde's derived visitor
performs it: a recognised key fills its slot (duplicates are an error),
unknown keys are ignored. -/
def quoteFields : List (String × Json) → QuotePartial → Except String QuotePartial
  | [], acc => .ok acc
  | (k, v) :: rest, acc =>
    if k = "amount" then
      match acc.amount with
      | some _ => .error "duplicate field amount"
      | none =>
        match decodeString v with
        | .error e => .error e
        | .ok s => quoteFields rest { acc with amount := some s }
    else if k = "chain" then
      match acc.chain with
      | some _ => .error "duplicate field chain"
      | none =>
        match decodeString v with
        | .error e => .error e
        | .ok s => quoteFields rest { acc with chain := some s }
    else if k = "decimals" then
      match acc.decimals with
      | some _ => .error "duplicate field decimals"
      | none =>
        match decodeU32 v with
        | .error e => .error e
        | .ok n => quoteFields rest { acc with decimals := some n }
    else if k = "expires_at" then
      match acc.expires_at with
      | some _ => .error "duplicate field expires_at"
      | none =>
        match decodeI64 v with
        | .error e => .error e
        | .ok n => quoteFields rest { acc with expires_at := some n }
    else if k = "mint" then
      match acc.mint with
      | some _ => .error "duplicate field mint"
      | none =>
        match decodeString v with
        | .error e => .error e
        | .ok s => quoteFields rest { acc with mint := some s }
    else if k = "network" then
      match acc.network with
      | some _ => .error "duplicate field network"
      | none =>
        match decodeString v with
        | .error e => .error e
        | .ok s => quoteFields rest { acc with network := some s }
    else if k = "nonce" then
      match acc.nonce with
      | some _ => .error "duplicate field nonce"
      | none =>
        match decodeString v with
        | .error e => .error e
        | .ok s => quoteFields rest { acc with nonce := some s }
    else if k = "recipient" then
      match acc.recipient with
      | some _ => .error "duplicate field recipient"
      | none =>
        match decodeString v with
        | .error e => .error e
        | .ok s => quoteFields rest { acc with recipient := some s }
    else if k = "version" then
      match acc.version with
      | some _ => .error "duplicate field version"
      | none =>
        match decodeString v with
        | .error e => .error e
        | .ok s => quoteFields rest { acc with version := some s }
    else quoteFields rest acc

/-- Final step of quote deserialization: every slot must be filled, any
missing field is an error. -/
def QuotePartial.finish (p : QuotePartial) : Except String QuoteResponse :=
  match p.amount, p.chain, p.decimals, p.expires_at, p.mint,
        p.network, p.nonce, p.recipient, p.version with
  | some a, some c, some d, some e, some m, some nw, some no, some r, some v =>
    .ok ⟨a, c, d, e, m, nw, no, r, v⟩
  | _, _, _, _, _, _, _, _, _ => .error "missing field in QuoteResponse"

/-- The derived deserializer for `QuoteResponse`: the value must be an
object, its entries are folded into the partial record, and every required
field must be present with the right type. -/
def quoteFromJson : Json → Except String QuoteResponse
  | .obj fs =>
    match quoteFields fs {} with
    | .error e => .error e
    | .ok p => p.finish
  | _ => .error "invalid type: expected struct QuoteResponse"

/-- The verification payload `VerifyResponse`. -/
structure VerifyResponse where
  ok : Bool
deriving Repr

/-- Entry pass of the derived deserializer for `VerifyResponse`. -/
def verifyFields : List (String × Json) → Option Bool → Except String (Option Bool)
  | [], acc => .ok acc
  | (k, v) :: rest, acc =>
    if k = "ok" then
      match acc with
      | some _ => .error "duplicate field ok"
      | none =>
        match decodeBool v with
        | .error e => .error e
        | .ok b => verifyFields rest (some b)
    else verifyFields rest acc

/-- The derived deserializer for `VerifyResponse`. -/
def verifyFromJson : Json → Except String VerifyResponse
  | .obj fs =>
    match verifyFields fs none with
    | .error e => .error e
    | .ok (some b) => .ok ⟨b⟩
    | .ok none => .error "missing field ok"
  | _ => .error "invalid type: expected struct VerifyResponse"

/-- The identity payload `AuthMeResponse` (`created_at : f64` carried by the
integer numeric model). -/
structure AuthMeResponse where
  ok : Bool
  created_at : Int
  wallet_id : String
  selected_mint : String
deriving Repr

/-- Accumulator for the derived deserializer of `AuthMeResponse`. -/
structure AuthMePartial where
  ok : Option Bool := none
  created_at : Option Int := none
  wallet_id : Option String := none
  selected_mint : Option String := none

/-- Entry pass of the derived deserializer for `AuthMeResponse`. -/
def authMeFields : List (String × Json) → AuthMePartial → Except String AuthMePartial
  | [], acc => .ok acc
  | (k, v) :: rest, acc =>
    if k = "ok" then
      match acc.ok with
      | some _ => .error "duplicate field ok"
      | none =>
        match decodeBool v with
        | .error e => .error e
        | .ok b => authMeFields rest { acc with ok := some b }
    else if k = "created_at" then
      match acc.created_at with
      | some _ => .error "duplicate field created_at"
      | none =>
        match decodeF64 v with
        | .error e => .error e
        | .ok n => authMeFields rest { acc with created_at := some n }
    else if k = "wallet_id" then
      match acc.wallet_id with
      | some _ => .error "duplicate field wallet_id"
      | none =>
        match decodeString v with
        | .error e => .error e
        | .ok s => authMeFields rest { acc with wallet_id := some s }
    else if k = "selected_mint" then
      match acc.selected_mint with
      | some _ => .error "duplicate field selected_mint"
      | none =>
        match decodeString v with
        | .error e => .error e
        | .ok s => authMeFields rest { acc with selected_mint := some s }
    else authMeFields rest acc

/-- The derived deserializer for `AuthMeResponse`. -/
def authMeFromJson : Json → Except String AuthMeResponse
  | .obj fs =>
    match authMeFields fs {} with
    | .error e => .error e
    | .ok p =>
      match p.ok, p.created_at, p.wallet_id, p.selected_mint with
      | some o, some c, some w, some s => .ok ⟨o, c, w, s⟩
      | _, _, _, _ => .error "missing field in AuthMeResponse"
  | _ => .error "invalid type: expected struct AuthMeResponse"

/-- The nested metadata object `MetadataInfo`. -/
structure MetadataInfo where
  network : String
  supported_chains : List String
  version : String
deriving Repr

/-- Accumulator for the derived deserializer of `MetadataInfo`. -/
structure MetadataInfoPartial where
  network : Option String := none
  supported_chains : Option (List String) := none
  version : Option String := none

/-- Entry pass of the derived deserializer for `MetadataInfo`. -/
def metadataInfoFields :
    List (String × Json) → MetadataInfoPartial → Except String MetadataInfoPartial
  | [], acc => .ok acc
  | (k, v) :: rest, acc =>
    if k = "network" then
      match acc.network with
      | some _ => .error "duplicate field network"
      | none =>
        match decodeString v with
        | .error e => .error e
        | .ok s => metadataInfoFields rest { acc with network := some s }
    else if k = "supported_chains" then
      match acc.supported_chains with
      | some _ => .error "duplicate field supported_chains"
      | none =>
        match decodeStringList v with
        | .error e => .error e
        | .ok ss => metadataInfoFields rest { acc with supported_chains := some ss }
    else if k = "version" then
      match acc.version with
      | some _ => .error "duplicate field version"
      | none =>
        match decodeString v with
        | .error e => .error e
        | .ok s => metadataInfoFields rest { acc with version := some s }
    else metadataInfoFields rest acc

/-- The derived deserializer for `MetadataInfo`. -/
def metadataInfoFromJson : Json → Except String MetadataInfo
  | .obj fs =>
    match metadataInfoFields fs {} with
    | .error e => .error e
    | .ok p =>
      match p.network, p.supported_chains, p.version with
      | some n, some sc, some v => .ok ⟨n, sc, v⟩
      | _, _, _ => .error "missing field in MetadataInfo"
  | _ => .error "invalid type: expected struct MetadataInfo"

/-- The metadata payload `MetadataResponse`. -/
structure MetadataResponse where
  ok : Bool
  metadata : MetadataInfo
  supported_mints : List String
deriving Repr

/-- Accumulator for the derived deserializer of `MetadataResponse`. -/
structure MetadataPartial where
  ok : Option Bool := none
  metadata : Option MetadataInfo := none
  supported_mints : Option (List String) := none

/-- Entry pass of the derived deserializer for `MetadataResponse`. -/
def metadataFields :
    List (String × Json) → MetadataPartial → Except String MetadataPartial
  | [], acc => .ok acc
  | (k, v) :: rest, acc =>
    if k = "ok" then
      match acc.ok with
      | some _ => .error "duplicate field ok"
      | none =>
        match decodeBool v with
        | .error e => .error e
        | .ok b => metadataFields rest { acc with ok := some b }
    else if k = "metadata" then
      match acc.metadata with
      | some _ => .error "duplicate field metadata"
      | none =>
        match metadataInfoFromJson v with
        | .error e => .error e
        | .ok m => metadataFields rest { acc with metadata := some m }
    else if k = "supported_mints" then
      match acc.supported_mints with
      | some _ => .error "duplicate field supported_mints"
      | none =>
        match decodeStringList v with
        | .error e => .error e
        | .ok ss => metadataFields rest { acc with supported_mints := some ss }
    else metadataFields rest acc

/-- The derived deserializer for `MetadataResponse`. -/
def metadataFromJson : Json → Except String MetadataResponse
  | .obj fs =>
    match metadataFields fs {} with
    | .error e => .error e
    | .ok p =>
      match p.ok, p.metadata, p.supported_mints with
      | some o, some m, some sm => .ok ⟨o, m, sm⟩
      | _, _, _ => .error "missing field in MetadataResponse"
  | _ => .error "invalid type: expected struct MetadataResponse"

/-- The nested payment-proof object `X402Info`. -/
structure X402Info where
  amount : String
  decimals : Int
  mint : String
  nonce : String
  status : String
  tx : String
  version : String
deriving Repr

/-- Accumulator for the derived deserializer of `X402Info`. -/
structure X402Partial where
  amount : Option String := none
  decimals : Option Int := none
  mint : Option String := none
  nonce : Option String := none
  status : Option String := none
  tx : Option String := none
  version : Option String := none

/-- Entry pass of the derived deserializer for `X402Info`. -/
def x402Fields : List (String × Json) → X402Partial → Except String X402Partial
  | [], acc => .ok acc
  | (k, v) :: rest, acc =>
    if k = "amount" then
      match acc.amount with
      | some _ => .error "duplicate field amount"
      | none =>
        match decodeString v with
        | .error e => .error e
        | .ok s => x402Fields rest { acc with amount := some s }
    else if k = "decimals" then
      match acc.decimals with
      | some _ => .error "duplicate field decimals"
      | none =>
        match decodeU32 v with
        | .error e => .error e
        | .ok n => x402Fields rest { acc with decimals := some n }
    else if k = "mint" then
      match acc.mint with
      | some _ => .error "duplicate field mint"
      | none =>
        match decodeString v with
        | .error e => .error e
        | .ok s => x402Fields rest { acc with mint := some s }
    else if k = "nonce" then
      match acc.nonce with
      | some _ => .error "duplicate field nonce"
      | none =>
        match decodeString v with
        | .error e => .error e
        | .ok s => x402Fields rest { acc with nonce := some s }
    else if k = "status" then
      match acc.status with
      | some _ => .error "duplicate field status"
      | none =>
        match decodeString v with
        | .error e => .error e
        | .ok s => x402Fields rest { acc with status := some s }
    else if k = "tx" then
      match acc.tx with
      | some _ => .error "duplicate field tx"
      | none =>
        match decodeString v with
        | .error e => .error e
        | .ok s => x402Fields rest { acc with tx := some s }
    else if k = "version" then
      match acc.version with
      | some _ => .error "duplicate field version"
      | none =>
        match decodeString v with
        | .error e => .error e
        | .ok s => x402Fields rest { acc with version := some s }
    else x402Fields rest acc

/-- The derived deserializer for `X402Info`. -/
def x402FromJson : Json → Except String X402Info
  | .obj fs =>
    match x402Fields fs {} with
    | .error e => .error e
    | .ok p =>
      match p.amount, p.decimals, p.mint, p.nonce, p.status, p.tx, p.version with
      | some a, some d, some m, some n, some st, some t, some v =>
        .ok ⟨a, d, m, n, st, t, v⟩
      | _, _, _, _, _, _, _ => .error "missing field in X402Info"
  | _ => .error "invalid type: expected struct X402Info"

/-- The paid-access payload `PaidAccessResponse`. -/
structure PaidAccessResponse where
  ok : Bool
  x402 : X402Info
deriving Repr

/-- Accumulator for the derived deserializer of `PaidAccessResponse`. -/
structure PaidAccessPartial where
  ok : Option Bool := none
  x402 : Option X402Info := none

/-- Entry pass of the derived deserializer for `PaidAccessResponse`. -/
def paidAccessFields :
    List (String × Json) → PaidAccessPartial → Except String PaidAccessPartial
  | [], acc => .ok acc
  | (k, v) :: rest, acc =>
    if k = "ok" then
      match acc.ok with
      | some _ => .error "duplicate field ok"
      | none =>
        match decodeBool v with
        | .error e => .error e
        | .ok b => paidAccessFields rest { acc with ok := some b }
    else if k = "x402" then
      match acc.x402 with
      | some _ => .error "duplicate field x402"
      | none =>
        match x402FromJson v with
        | .error e => .error e
        | .ok x => paidAccessFields rest { acc with x402 := some x }
    else paidAccessFields rest acc

/-- The derived deserializer for `PaidAccessResponse`. -/
def paidAccessFromJson : Json → Except String PaidAccessResponse
  | .obj fs =>
    match paidAccessFields fs {} with
    | .error e => .error e
    | .ok p =>
      match p.ok, p.x402 with
      | some o, some x => .ok ⟨o, x⟩
      | _, _ => .error "missing field in PaidAccessResponse"
  | _ => .error "invalid type: expected struct PaidAccessResponse"

/-- Return type of `get_and_verify_quote`. -/
structure QuoteAndVerify where
  quote : QuoteResponse
  verify : VerifyResponse
deriving Repr

/-- Construction options for the client. -/
structure Nlx402ClientOptions where
  api_key : Option String
  base_url : Option String

/-- Client state: the normalized base URL and the optional API key (the
underlying `reqwest::Client` has no observable state of its own here). -/
structure Nlx402Client where
  base_url : String
  api_key : Option String

/-- Strip every trailing slash, modelling `base_url.trim_end_matches('/')`. -/
def trimTrailingSlashes (s : String) : String :=
  String.mk (s.data.reverse.dropWhile (fun c => c == '/')).reverse

/-- Constructor `Nlx402Client::new`: the base URL defaults to
`https://pay.thrt.ai` and has trailing slashes stripped. -/
def Nlx402Client.new (o : Nlx402ClientOptions) : Nlx402Client :=
  { base_url := trimTrailingSlashes (o.base_url.getD "https://pay.thrt.ai"),
    api_key := o.api_key }

/-- Constructor `Nlx402Client::with_api_key`. -/
def Nlx402Client.with_api_key (k : String) : Nlx402Client :=
  Nlx402Client.new ⟨some k, none⟩

/-- Mutator `Nlx402Client::set_api_key`. -/
def Nlx402Client.set_api_key (c : Nlx402Client) (k : String) : Nlx402Client :=
  { c with api_key := some k }

/-- The credential guard `require_api_key`: the key, or `MissingApiKey`. -/
def Nlx402Client.require_api_key (c : Nlx402Client) : Except Nlx402Error String :=
  match c.api_key with
  | some k => .ok k
  | none => .error .missingApiKey

/-- The network oracle: the transport's deterministic answer to each request. -/
def Net : Type := Request → TransportResult

/-- Operation `get_auth_me`: credential guard, then `GET /api/auth/me` with
the `x-api-key` header.  The second component is the trace of requests the
operation issued. -/
def Nlx402Client.get_auth_me (c : Nlx402Client) (net : Net) :
    Except Nlx402Error AuthMeResponse × List Request :=
  match c.require_api_key with
  | .error e => (.error e, [])
  | .ok key =>
    let req : Request := ⟨.get, c.base_url ++ "/api/auth/me", [("x-api-key", key)], none⟩
    (send_json authMeFromJson (net req), [req])

/-- Operation `get_metadata`: `GET /api/metadata`, no credential guard. -/
def Nlx402Client.get_metadata (c : Nlx402Client) (net : Net) :
    Except Nlx402Error MetadataResponse × List Request :=
  let req : Request := ⟨.get, c.base_url ++ "/api/metadata", [], none⟩
  (send_json metadataFromJson (net req), [req])

/-- Operation `get_quote`: credential guard, then `GET /protected` with the
`x-api-key` header and the `x-total-price` header, which defaults to `0.5`
when `total_price` is omitted. -/
def Nlx402Client.get_quote (c : Nlx402Client) (net : Net) (total_price : Option String) :
    Except Nlx402Error QuoteResponse × List Request :=
  match c.require_api_key with
  | .error e => (.error e, [])
  | .ok key =>
    let total := total_price.getD "0.5"
    let req : Request :=
      ⟨.get, c.base_url ++ "/protected", [("x-api-key", key), ("x-total-price", total)], none⟩
    (send_json quoteFromJson (net req), [req])

/-- Operation `verify_quote`: credential guard, then the empty-nonce guard,
then `POST /verify` with form fields `payment_data` (the serialized quote)
and `nonce`.  `serde_json::to_string` of a quote never fails, so its error
branch is not reachable in the model either. -/
def Nlx402Client.verify_quote (c : Nlx402Client) (net : Net)
    (quote : QuoteResponse) (nonce : String) :
    Except Nlx402Error VerifyResponse × List Request :=
  match c.require_api_key with
  | .error e => (.error e, [])
  | .ok key =>
    if nonce = "" then
      (.error (.invalidResponse "verify_quote: nonce is required"), [])
    else
      let payment_data := serializeQuote quote
      let req : Request :=
        ⟨.post, c.base_url ++ "/verify", [("x-api-key", key)],
         some [("payment_data", payment_data), ("nonce", nonce)]⟩
      (send_json verifyFromJson (net req), [req])

/-- Operation `verify_quote_raw`: as `verify_quote`, with the caller's
pre-serialized quote JSON passed through verbatim. -/
def Nlx402Client.verify_quote_raw (c : Nlx402Client) (net : Net)
    (quote_json : String) (nonce : String) :
    Except Nlx402Error VerifyResponse × List Request :=
  match c.require_api_key with
  | .error e => (.error e, [])
  | .ok key =>
    if nonce = "" then
      (.error (.invalidResponse "verify_quote_raw: nonce is required"), [])
    else
      let req : Request :=
        ⟨.post, c.base_url ++ "/verify", [("x-api-key", key)],
         some [("payment_data", quote_json), ("nonce", nonce)]⟩
      (send_json verifyFromJson (net req), [req])

/-- Operation `get_paid_access`: credential guard, then the empty-tx/nonce
guard, then `GET /protected` with the `x-api-key` header and the `x-payment`
header carrying the rendered `{tx, nonce}` object (whose keys `serde_json`'s
BTreeMap stores sorted: `nonce` before `tx`). -/
def Nlx402Client.get_paid_access (c : Nlx402Client) (net : Net)
    (tx : String) (nonce : String) :
    Except Nlx402Error PaidAccessResponse × List Request :=
  match c.require_api_key with
  | .error e => (.error e, [])
  | .ok key =>
    if tx = "" ∨ nonce = "" then
      (.error (.invalidResponse "get_paid_access: tx and nonce are required"), [])
    else
      let x_payment := (Json.obj [("nonce", .str nonce), ("tx", .str tx)]).render
      let req : Request :=
        ⟨.get, c.base_url ++ "/protected",
         [("x-api-key", key), ("x-payment", x_payment)], none⟩
      (send_json paidAccessFromJson (net req), [req])

/-- Composite operation `get_and_verify_quote`: `get_quote`, then — only
when the quote succeeded — `verify_quote` with the quote's own nonce.  The
trace concatenates the traces of the steps actually taken. -/
def Nlx402Client.get_and_verify_quote (c : Nlx402Client) (net : Net)
    (total_price : Option String) :
    Except Nlx402Error QuoteAndVerify × List Request :=
  match c.get_quote net total_price with
  | (.error e, qreqs) => (.error e, qreqs)
  | (.ok quote, qreqs) =>
    match c.verify_quote net quote quote.nonce with
    | (.error e, vreqs) => (.error e, qreqs ++ vreqs)
    | (.ok verify, vreqs) => (.ok ⟨quote, verify⟩, qreqs ++ vreqs)

/-! ### Concrete fixtures used by witnesses -/

/-- A network oracle that always fails at transport level. -/
def netFail : Net := fun _ => .failed "connection refused"

/-- The concrete quote of the spec's end-to-end example. -/
def q0 : QuoteResponse :=
  ⟨"0.5", "solana", 6, 1999999999, "USDC", "mainnet", "abc123", "wallet1", "1"⟩

/-- A network oracle realising the spec's end-to-end example: the verify
endpoint answers `ok: true`, every other URL answers with the example
quote. -/
def netGood : Net := fun r =>
  if r.url = "https://pay.thrt.ai/verify" then
    .response 200 (.json (.obj [("ok", .bool true)]))
  else
    .response 200 (.json (quoteToJson q0))

/-- A concrete client with an API key set. -/
def cKey : Nlx402Client := ⟨"https://pay.thrt.ai", some "key"⟩

/-- A concrete client with no API key. -/
def cNoKey : Nlx402Client := ⟨"https://pay.thrt.ai", none⟩

/-! ### Claims -/

/-- C3: on a client with an API key set, `verify_quote` and
`verify_quote_raw` called with an empty nonce return the `InvalidResponse`
error and issue zero network requests, for every quote value. -/
theorem verify_empty_nonce_rejected (c : Nlx402Client) (net : Net) (k : String)
    (hk : c.api_key = some k) (q : QuoteResponse) (s : String) :
    c.verify_quote net q "" =
      (Except.error (.invalidResponse "verify_quote: nonce is required"), []) ∧
    c.verify_quote_raw net s "" =
      (Except.error (.invalidResponse "verify_quote_raw: nonce is required"), []) := by
  simp [Nlx402Client.verify_quote, Nlx402Client.verify_quote_raw,
        Nlx402Client.require_api_key, hk]

/-- Witness for C3 at a concrete client, oracle, quote and raw string. -/
theorem verify_empty_nonce_rejected_witness :
    cKey.verify_quote netFail q0 "" =
      (Except.error (.invalidResponse "verify_quote: nonce is required"), []) ∧
    cKey.verify_quote_raw netFail "raw" "" =
      (Except.error (.invalidResponse "verify_quote_raw: nonce is required"), []) :=
  verify_empty_nonce_rejected cKey netFail "key" rfl q0 "raw"

/-- C4: on a client with an API key set, `get_paid_access` with an empty tx
or an empty nonce returns the `InvalidResponse` error and issues zero
network requests. -/
theorem paid_access_empty_args_rejected (c : Nlx402Client) (net : Net) (k : String)
    (hk : c.api_key = some k) (tx nonce : String) (h : tx = "" ∨ nonce = "") :
    c.get_paid_access net tx nonce =
      (Except.error (.invalidResponse "get_paid_access: tx and nonce are required"), []) := by
  simp [Nlx402Client.get_paid_access, Nlx402Client.require_api_key, hk, h]

/-- Witness for C4: both the empty-tx and the empty-nonce case at concrete
inputs. -/
theorem paid_access_empty_args_rejected_witness :
    cKey.get_paid_access netFail "" "abc123" =
      (Except.error (.invalidResponse "get_paid_access: tx and nonce are required"), []) ∧
    cKey.get_paid_access netFail "tx1" "" =
      (Except.error (.invalidResponse "get_paid_access: tx and nonce are required"), []) :=
  ⟨paid_access_empty_args_rejected cKey netFail "key" rfl "" "abc123" (Or.inl rfl),
   paid_access_empty_args_rejected cKey netFail "key" rfl "tx1" "" (Or.inr rfl)⟩

/-- C10: on a client with no API key, the credential guard runs before the
local empty-input checks: `verify_quote`, `verify_quote_raw` and
`get_paid_access` with empty nonce (or empty tx) return `MissingApiKey`,
not `InvalidResponse`, and issue zero network requests. -/
theorem missing_key_precedes_input_checks (c : Nlx402Client) (net : Net)
    (h : c.api_key = none) (q : QuoteResponse) (s tx nonce : String) :
    c.verify_quote net q "" = (Except.error .missingApiKey, []) ∧
    c.verify_quote_raw net s "" = (Except.error .missingApiKey, []) ∧
    c.get_paid_access net "" nonce = (Except.error .missingApiKey, []) ∧
    c.get_paid_access net tx "" = (Except.error .missingApiKey, []) := by
  simp [Nlx402Client.verify_quote, Nlx402Client.verify_quote_raw,
        Nlx402Client.get_paid_access, Nlx402Client.require_api_key, h]

/-- Witness for C10 at a concrete keyless client. -/
theorem missing_key_precedes_input_checks_witness :
    cNoKey.verify_quote netFail q0 "" = (Except.error .missingApiKey, []) ∧
    cNoKey.verify_quote_raw netFail "raw" "" = (Except.error .missingApiKey, []) ∧
    cNoKey.get_paid_access netFail "" "abc123" = (Except.error .missingApiKey, []) ∧
    cNoKey.get_paid_access netFail "tx1" "" = (Except.error .missingApiKey, []) :=
  missing_key_precedes_input_checks cNoKey netFail rfl q0 "raw" "tx1" "abc123"

/-- C5: every credentialed operation called on a client with no API key
returns `MissingApiKey` and issues zero network requests, while
`get_metadata` — the one operation without a credential guard — still
issues its request. -/
theorem credential_guard (c : Nlx402Client) (net : Net) (h : c.api_key = none) :
    c.get_auth_me net = (Except.error .missingApiKey, []) ∧
    (∀ tp, c.get_quote net tp = (Except.error .missingApiKey, [])) ∧
    (∀ q n, c.verify_quote net q n = (Except.error .missingApiKey, [])) ∧
    (∀ s n, c.verify_quote_raw net s n = (Except.error .missingApiKey, [])) ∧
    (∀ tx n, c.get_paid_access net tx n = (Except.error .missingApiKey, [])) ∧
    (∀ tp, c.get_and_verify_quote net tp = (Except.error .missingApiKey, [])) ∧
    (c.get_metadata net).2 = [⟨.get, c.base_url ++ "/api/metadata", [], none⟩] := by
  simp [Nlx402Client.get_auth_me, Nlx402Client.get_quote, Nlx402Client.verify_quote,
        Nlx402Client.verify_quote_raw, Nlx402Client.get_paid_access,
        Nlx402Client.get_and_verify_quote, Nlx402Client.get_metadata,
        Nlx402Client.require_api_key, h]

/-- Witness for C5 at a concrete keyless client and concrete inputs for
every operation. -/
theorem credential_guard_witness :
    cNoKey.get_auth_me netFail = (Except.error .missingApiKey, []) ∧
    cNoKey.get_quote netFail none = (Except.error .missingApiKey, []) ∧
    cNoKey.verify_quote netFail q0 "abc123" = (Except.error .missingApiKey, []) ∧
    cNoKey.verify_quote_raw netFail "raw" "abc123" = (Except.error .missingApiKey, []) ∧
    cNoKey.get_paid_access netFail "tx1" "abc123" = (Except.error .missingApiKey, []) ∧
    cNoKey.get_and_verify_quote netFail none = (Except.error .missingApiKey, []) ∧
    (cNoKey.get_metadata netFail).2 =
      [⟨.get, cNoKey.base_url ++ "/api/metadata", [], none⟩] := by
  have h := credential_guard cNoKey netFail rfl
  exact ⟨h.1, h.2.1 none, h.2.2.1 q0 "abc123", h.2.2.2.1 "raw" "abc123",
         h.2.2.2.2.1 "tx1" "abc123", h.2.2.2.2.2.1 none, h.2.2.2.2.2.2⟩

/-- C9: on a client with an API key set, `get_quote` sends the
`x-total-price` header with value `0.5` when `total_price` is omitted and
with value `p` when `some p` is supplied. -/
theorem quote_price_header (c : Nlx402Client) (net : Net) (k : String)
    (hk : c.api_key = some k) (p : String) :
    (c.get_quote net none).2 =
      [⟨.get, c.base_url ++ "/protected",
        [("x-api-key", k), ("x-total-price", "0.5")], none⟩] ∧
    (c.get_quote net (some p)).2 =
      [⟨.get, c.base_url ++ "/protected",
        [("x-api-key", k), ("x-total-price", p)], none⟩] := by
  simp [Nlx402Client.get_quote, Nlx402Client.require_api_key, hk]

/-- Witness for C9 at a concrete keyed client and price `1.25`. -/
theorem quote_price_header_witness :
    (cKey.get_quote netFail none).2 =
      [⟨.get, cKey.base_url ++ "/protected",
        [("x-api-key", "key"), ("x-total-price", "0.5")], none⟩] ∧
    (cKey.get_quote netFail (some "1.25")).2 =
      [⟨.get, cKey.base_url ++ "/protected",
        [("x-api-key", "key"), ("x-total-price", "1.25")], none⟩] :=
  quote_price_header cKey netFail "key" rfl "1.25"

/-- C6: a response with status outside 200–299 is classified as `Api` with
the status and the best-effort generic parse of the body (`some` value when
the body text is valid JSON, `none` otherwise), for every decoder. -/
theorem api_error_classification {α : Type} (decode : Json → Except String α)
    (status : Nat) (body : BodyText) (h : status < 200 ∨ 300 ≤ status) :
    send_json decode (.response status body) =
      Except.error (.api status body.parseValue) := by
  simp only [send_json]
  rw [if_neg (by omega)]

/-- Witness for C6: the spec's 402 example with a parseable JSON body, and
a 500 with an unparseable body. -/
theorem api_error_classification_witness :
    send_json quoteFromJson
        (.response 402 (.json (.obj [("error", .str "insufficient payment")]))) =
      Except.error (.api 402 (some (.obj [("error", .str "insufficient payment")]))) ∧
    send_json quoteFromJson (.response 500 (.malformed "<nonjson>")) =
      Except.error (.api 500 none) :=
  ⟨api_error_classification quoteFromJson 402
      (.json (.obj [("error", .str "insufficient payment")])) (by omega),
   api_error_classification quoteFromJson 500 (.malformed "<nonjson>") (by omega)⟩

/-- Every request `get_quote` issues is a GET to `/protected`. -/
theorem get_quote_trace (c : Nlx402Client) (net : Net) (tp : Option String) :
    ∀ r ∈ (c.get_quote net tp).2,
      r.method = Method.get ∧ r.url = c.base_url ++ "/protected" := by
  cases hc : c.api_key <;>
    simp [Nlx402Client.get_quote, Nlx402Client.require_api_key, hc]

/-- On a keyed client, `get_quote` is one request to `/protected` classified
by `send_json`. -/
theorem get_quote_eq (c : Nlx402Client) (net : Net) (tp : Option String)
    (k : String) (hk : c.api_key = some k) :
    c.get_quote net tp =
      (send_json quoteFromJson
         (net ⟨.get, c.base_url ++ "/protected",
               [("x-api-key", k), ("x-total-price", tp.getD "0.5")], none⟩),
       [⟨.get, c.base_url ++ "/protected",
         [("x-api-key", k), ("x-total-price", tp.getD "0.5")], none⟩]) := by
  simp [Nlx402Client.get_quote, Nlx402Client.require_api_key, hk]

/-- On a keyed client with a non-empty nonce, `verify_quote` is one POST to
`/verify` carrying the serialized quote and the nonce as form fields. -/
theorem verify_quote_eq (c : Nlx402Client) (net : Net) (q : QuoteResponse)
    (n : String) (k : String) (hk : c.api_key = some k) (hn : ¬n = "") :
    c.verify_quote net q n =
      (send_json verifyFromJson
         (net ⟨.post, c.base_url ++ "/verify", [("x-api-key", k)],
               some [("payment_data", serializeQuote q), ("nonce", n)]⟩),
       [⟨.post, c.base_url ++ "/verify", [("x-api-key", k)],
         some [("payment_data", serializeQuote q), ("nonce", n)]⟩]) := by
  simp [Nlx402Client.verify_quote, Nlx402Client.require_api_key, hk, hn]

/-- C2: when the quote step of `get_and_verify_quote` fails, the composite
returns that first error unchanged, its trace is the quote step's trace,
and no request in the trace is the verify POST (every issued request is the
GET to `/protected`); the verify request can thus only be issued once the
quote response has been received and decoded successfully. -/
theorem quote_failure_short_circuits (c : Nlx402Client) (net : Net)
    (tp : Option String) (e : Nlx402Error)
    (h : (c.get_quote net tp).1 = .error e) :
    c.get_and_verify_quote net tp = (.error e, (c.get_quote net tp).2) ∧
    ∀ r ∈ (c.get_and_verify_quote net tp).2,
      r.method = Method.get ∧ r.url = c.base_url ++ "/protected" := by
  have htr := get_quote_trace c net tp
  rcases hq : c.get_quote net tp with ⟨res, reqs⟩
  rw [hq] at h htr
  simp only [Prod.fst] at h
  subst h
  have hcomp : c.get_and_verify_quote net tp = (.error e, reqs) := by
    simp [Nlx402Client.get_and_verify_quote, hq]
  refine ⟨by simp [hcomp, hq], ?_⟩
  rw [hcomp]
  simpa using htr

/-- Witness for C2: a transport failure on the quote step is returned
unchanged by the composite, with only the quote step's trace. -/
theorem quote_failure_short_circuits_witness :
    cKey.get_and_verify_quote netFail none =
      (Except.error (.http "connection refused"), (cKey.get_quote netFail none).2) :=
  (quote_failure_short_circuits cKey netFail none (.http "connection refused") rfl).1

/-- C1: whenever `get_and_verify_quote` succeeds on a client whose key is
`k`, its trace is exactly the quote GET followed by the verify POST, and the
nonce submitted in the verify form is exactly the returned quote's own
nonce field. -/
theorem nonce_threaded (c : Nlx402Client) (net : Net) (tp : Option String)
    (k : String) (hk : c.api_key = some k) (qv : QuoteAndVerify)
    (reqs : List Request)
    (h : c.get_and_verify_quote net tp = (.ok qv, reqs)) :
    reqs = [⟨.get, c.base_url ++ "/protected",
             [("x-api-key", k), ("x-total-price", tp.getD "0.5")], none⟩,
            ⟨.post, c.base_url ++ "/verify", [("x-api-key", k)],
             some [("payment_data", serializeQuote qv.quote),
                   ("nonce", qv.quote.nonce)]⟩] := by
  cases hq : send_json quoteFromJson
      (net ⟨.get, c.base_url ++ "/protected",
            [("x-api-key", k), ("x-total-price", tp.getD "0.5")], none⟩) with
  | error e =>
    simp [Nlx402Client.get_and_verify_quote, get_quote_eq c net tp k hk, hq] at h
  | ok quote =>
    simp only [Nlx402Client.get_and_verify_quote, get_quote_eq c net tp k hk, hq] at h
    by_cases hn : quote.nonce = ""
    · simp [Nlx402Client.verify_quote, Nlx402Client.require_api_key, hk, hn] at h
    · simp only [verify_quote_eq c net quote quote.nonce k hk hn] at h
      cases hv : send_json verifyFromJson
          (net ⟨.post, c.base_url ++ "/verify", [("x-api-key", k)],
                some [("payment_data", serializeQuote quote),
                      ("nonce", quote.nonce)]⟩) with
      | error e => simp [hv] at h
      | ok v =>
        simp only [hv, List.singleton_append, Prod.mk.injEq, Except.ok.injEq] at h
        obtain ⟨hqv, hreqs⟩ := h
        subst hqv
        subst hreqs
        rfl

/-- Witness for C1: with the spec's example responses, the composite
succeeds and its trace is the quote GET followed by the verify POST whose
submitted nonce is the returned quote's nonce `abc123`. -/
theorem nonce_threaded_witness :
    ([⟨.get, "https://pay.thrt.ai/protected",
       [("x-api-key", "key"), ("x-total-price", "0.5")], none⟩,
      ⟨.post, "https://pay.thrt.ai/verify", [("x-api-key", "key")],
       some [("payment_data", serializeQuote q0), ("nonce", "abc123")]⟩]
     : List Request) =
      [⟨.get, cKey.base_url ++ "/protected",
        [("x-api-key", "key"), ("x-total-price", (none : Option String).getD "0.5")], none⟩,
       ⟨.post, cKey.base_url ++ "/verify", [("x-api-key", "key")],
        some [("payment_data", serializeQuote (QuoteAndVerify.mk q0 ⟨true⟩).quote),
              ("nonce", (QuoteAndVerify.mk q0 ⟨true⟩).quote.nonce)]⟩] :=
  nonce_threaded cKey netGood none "key" rfl ⟨q0, ⟨true⟩⟩
    [⟨.get, "https://pay.thrt.ai/protected",
      [("x-api-key", "key"), ("x-total-price", "0.5")], none⟩,
     ⟨.post, "https://pay.thrt.ai/verify", [("x-api-key", "key")],
      some [("payment_data", serializeQuote q0), ("nonce", "abc123")]⟩]
    (by rfl)

/-- A `u32` decode only succeeds on integers in `[0, 2^32)`. -/
theorem decodeU32_bounds {v : Json} {n : Int} (h : decodeU32 v = Except.ok n) :
    0 ≤ n ∧ n < 4294967296 := by
  cases v with
  | num m =>
    simp only [decodeU32] at h
    split at h
    · injection h with h'
      subst h'
      assumption
    · exact Except.noConfusion h
  | null => exact Except.noConfusion h
  | bool b => exact Except.noConfusion h
  | str s => exact Except.noConfusion h
  | arr xs => exact Except.noConfusion h
  | obj fs => exact Except.noConfusion h

/-- An `i64` decode only succeeds on integers in `[-2^63, 2^63)`. -/
theorem decodeI64_bounds {v : Json} {n : Int} (h : decodeI64 v = Except.ok n) :
    -9223372036854775808 ≤ n ∧ n < 9223372036854775808 := by
  cases v with
  | num m =>
    simp only [decodeI64] at h
    split at h
    · injection h with h'
      subst h'
      assumption
    · exact Except.noConfusion h
  | null => exact Except.noConfusion h
  | bool b => exact Except.noConfusion h
  | str s => exact Except.noConfusion h
  | arr xs => exact Except.noConfusion h
  | obj fs => exact Except.noConfusion h

/-- Invariant of the quote decode accumulator: any filled integer slot is
already within its machine range. -/
def QuotePartial.Inv (p : QuotePartial) : Prop :=
  (∀ d, p.decimals = some d → 0 ≤ d ∧ d < 4294967296) ∧
  (∀ e, p.expires_at = some e →
    -9223372036854775808 ≤ e ∧ e < 9223372036854775808)

/-- The entry pass of the quote decoder preserves the range invariant. -/
theorem quoteFields_inv : ∀ (fs : List (String × Json)) (acc : QuotePartial),
    acc.Inv → ∀ p, quoteFields fs acc = Except.ok p → p.Inv := by
  intro fs
  induction fs with
  | nil =>
    intro acc hacc p hp
    simp only [quoteFields] at hp
    injection hp with h'
    subst h'
    exact hacc
  | cons kv rest ih =>
    intro acc hacc p hp
    obtain ⟨k, v⟩ := kv
    simp only [quoteFields] at hp
    split at hp
    · split at hp
      · exact Except.noConfusion hp
      · split at hp
        · exact Except.noConfusion hp
        · exact ih _ (by exact hacc) _ hp
    · split at hp
      · split at hp
        · exact Except.noConfusion hp
        · split at hp
          · exact Except.noConfusion hp
          · exact ih _ (by exact hacc) _ hp
      · split at hp
        · split at hp
          · exact Except.noConfusion hp
          · split at hp
            · exact Except.noConfusion hp
            · rename_i n hdec
              refine ih _ ?_ _ hp
              refine ⟨?_, hacc.2⟩
              intro d hd
              injection hd with h'
              subst h'
              exact decodeU32_bounds hdec
        · split at hp
          · split at hp
            · exact Except.noConfusion hp
            · split at hp
              · exact Except.noConfusion hp
              · rename_i n hdec
                refine ih _ ?_ _ hp
                refine ⟨hacc.1, ?_⟩
                intro e he
                injection he with h'
                subst h'
                exact decodeI64_bounds hdec
          · split at hp
            · split at hp
              · exact Except.noConfusion hp
              · split at hp
                · exact Except.noConfusion hp
                · exact ih _ (by exact hacc) _ hp
            · split at hp
              · split at hp
                · exact Except.noConfusion hp
                · split at hp
                  · exact Except.noConfusion hp
                  · exact ih _ (by exact hacc) _ hp
              · split at hp
                · split at hp
                  · exact Except.noConfusion hp
                  · split at hp
                    · exact Except.noConfusion hp
                    · exact ih _ (by exact hacc) _ hp
                · split at hp
                  · split at hp
                    · exact Except.noConfusion hp
                    · split at hp
                      · exact Except.noConfusion hp
                      · exact ih _ (by exact hacc) _ hp
                  · split at hp
                    · split at hp
                      · exact Except.noConfusion hp
                      · split at hp
                        · exact Except.noConfusion hp
                        · exact ih _ (by exact hacc) _ hp
                    · exact ih _ (by exact hacc) _ hp

/-- A finished decode of a range-invariant accumulator is well formed. -/
theorem finish_wf {p : QuotePartial} {q : QuoteResponse} (hinv : p.Inv)
    (h : p.finish = Except.ok q) : q.Wf := by
  simp only [QuotePartial.finish] at h
  split at h
  · rename_i a c d e m nw no r v ha hc hd he hm hnw hno hr hv
    injection h with h'
    subst h'
    exact ⟨(hinv.1 d hd).1, (hinv.1 d hd).2, (hinv.2 e he).1, (hinv.2 e he).2⟩
  · exact Except.noConfusion h

/-- Every value the quote decoder accepts is well formed: its integer fields
lie in their machine ranges. -/
theorem quoteFromJson_wf {v : Json} {q : QuoteResponse}
    (h : quoteFromJson v = Except.ok q) : q.Wf := by
  cases v with
  | obj fs =>
    simp only [quoteFromJson] at h
    split at h
    · exact Except.noConfusion h
    · rename_i p hp
      exact finish_wf
        (quoteFields_inv fs {}
          ⟨fun d hd => Option.noConfusion hd, fun e he => Option.noConfusion he⟩ p hp) h
  | null => exact Except.noConfusion h
  | bool b => exact Except.noConfusion h
  | num n => exact Except.noConfusion h
  | str s => exact Except.noConfusion h
  | arr xs => exact Except.noConfusion h

/-- C7: for a response with status in 200–299, a body that is not valid
JSON yields `InvalidResponse` with the parse error message; a body whose
JSON does not decode to the quote shape yields `InvalidResponse` with the
decode error; and a successful decode yields the decoded value, which has
all fields present and within their machine ranges.  No other outcome —
in particular no panic and no partially populated value — is possible. -/
theorem success_decode_classification (status : Nat) (body : BodyText)
    (h1 : 200 ≤ status) (h2 : status < 300) :
    (∀ raw, body = .malformed raw →
      send_json quoteFromJson (.response status body) =
        Except.error (.invalidResponse (parseFailureMsg raw))) ∧
    (∀ v e, body = .json v → quoteFromJson v = .error e →
      send_json quoteFromJson (.response status body) =
        Except.error (.invalidResponse e)) ∧
    (∀ v q, body = .json v → quoteFromJson v = .ok q →
      send_json quoteFromJson (.response status body) = Except.ok q ∧ q.Wf) := by
  refine ⟨?_, ?_, ?_⟩
  · intro raw hb
    subst hb
    simp only [send_json]
    rw [if_pos ⟨h1, h2⟩]
  · intro v e hb hd
    subst hb
    simp only [send_json]
    rw [if_pos ⟨h1, h2⟩]
    simp [hd]
  · intro v q hb hd
    subst hb
    refine ⟨?_, quoteFromJson_wf hd⟩
    simp only [send_json]
    rw [if_pos ⟨h1, h2⟩]
    simp [hd]

/-- Witness for C7: at status 200, an unparseable body, the spec's
missing-nonce example, and a successful decode of the example quote. -/
theorem success_decode_classification_witness :
    send_json quoteFromJson (.response 200 (.malformed "<nonjson>")) =
      Except.error (.invalidResponse (parseFailureMsg "<nonjson>")) ∧
    send_json quoteFromJson
        (.response 200 (.json (.obj [("amount", .str "0.5")]))) =
      Except.error (.invalidResponse "missing field in QuoteResponse") ∧
    (send_json quoteFromJson (.response 200 (.json (quoteToJson q0))) =
      Except.ok q0 ∧ q0.Wf) :=
  ⟨(success_decode_classification 200 (.malformed "<nonjson>")
      (by omega) (by omega)).1 "<nonjson>" rfl,
   (success_decode_classification 200 (.json (.obj [("amount", .str "0.5")]))
      (by omega) (by omega)).2.1 (.obj [("amount", .str "0.5")])
      "missing field in QuoteResponse" rfl (by rfl),
   (success_decode_classification 200 (.json (quoteToJson q0))
      (by omega) (by omega)).2.2 (quoteToJson q0) q0 rfl (by rfl)⟩

/-- Deserializing a serialized well-formed quote yields the quote back. -/
theorem quoteFromJson_toJson (q : QuoteResponse) (h : q.Wf) :
    quoteFromJson (quoteToJson q) = Except.ok q := by
  obtain ⟨h1, h2, h3, h4⟩ := h
  simp [quoteFromJson, quoteToJson, quoteFields, decodeString, decodeU32, decodeI64,
        QuotePartial.finish, h1, h2, h3, h4]

/-- C8: for every well-formed quote, serializing, deserializing the wire
document, and serializing again yields the same wire text as serializing
once (and deserialization recovers the quote exactly). -/
theorem serialize_roundtrip (q : QuoteResponse) (h : q.Wf) :
    quoteFromJson (quoteToJson q) = Except.ok q ∧
    Except.map serializeQuote (quoteFromJson (quoteToJson q)) =
      Except.ok (serializeQuote q) := by
  have hrt := quoteFromJson_toJson q h
  exact ⟨hrt, by rw [hrt]; rfl⟩

/-- Witness for C8 at the spec's example quote. -/
theorem serialize_roundtrip_witness :
    quoteFromJson (quoteToJson q0) = Except.ok q0 ∧
    Except.map serializeQuote (quoteFromJson (quoteToJson q0)) =
      Except.ok (serializeQuote q0) :=
  serialize_roundtrip q0 ⟨by decide, by decide, by decide, by decide⟩

end NLx402
